import Mathlib

/-!
Verification development for the trucking-logistics backend.

This file gives a shallow embedding, in Lean, of the pure computational core
of the repository's Python services and proves properties about it:

* `hos_compliance/services/rest_break_planner.py`
  (`plan_30_minute_breaks`, `_optimize_break_schedule`, `_can_combine_breaks`,
  `_combine_breaks`, `_validate_break_plan_compliance`);
* `hos_compliance/services/hos_calculator.py`
  (`calculate_available_hours`, `_validate_hours_input`, `_check_can_drive`,
  `_calculate_max_continuous_driving`, `validate_hos_compliance`);
* `eld_logs/services/daily_log_generator.py`
  (`_determine_daily_log_dates`, the per-date clipping step of
  `_create_duty_status_records_for_date`, `_fill_daily_log_gaps`).

Python `Decimal` quantities are modelled as `ℚ` (exact arithmetic, matching
`Decimal`'s exactness on the values involved), datetimes as whole minutes
(`ℕ`) since an arbitrary epoch, and calendar dates as day indices
(day `d` is the window `[1440*d, 1440*(d+1))` of minutes).  Python `while`
loops are embedded with an explicit fuel parameter; exhausted fuel yields
`none`, and termination of the source loop is the theorem that with the
stated fuel the result is `some`.
-/

/-! ## Break records (the dictionaries built by `rest_break_planner.py`) -/

/-- A break dictionary as produced by `RestBreakPlannerService`
(`break_type`, `duration_hours`, `required_at_driving_hours`,
`required_at_trip_miles`, `is_mandatory`, `regulation_reference`,
`location_description`, `priority`, `reason`). -/
structure BreakRec where
  break_type : String
  duration_hours : ℚ
  required_at_driving_hours : ℚ
  required_at_trip_miles : ℚ
  is_mandatory : Bool
  regulation_reference : String
  location_description : String
  priority : String
  reason : String
  deriving Repr, DecidableEq

/-- The 30-minute break dictionary appended by `plan_30_minute_breaks`
at cumulative driving mark `mark` (lines 160-174 of
`rest_break_planner.py`); `AVERAGE_DRIVING_SPEED_MPH = 55`. -/
def mk30Break (mark : ℚ) : BreakRec where
  break_type := "30_minute"
  duration_hours := 1/2
  required_at_driving_hours := mark
  required_at_trip_miles := mark * 55
  is_mandatory := true
  regulation_reference := "395.3(a)(3)(ii)"
  location_description := "Rest area or truck stop"
  priority := "critical"
  reason := "30-minute rest break after 8 hours driving"

/-! ## `plan_30_minute_breaks` (rest_break_planner.py lines 132-191)

The `while remaining_hours > 0` loop, embedded with fuel.  The loop body:
if `current_driving_hours >= 8` emit a break at `driving_hours_completed`
and reset the counter; then consume
`min(remaining_hours, 8 - current_driving_hours)`.  The result carries the
break list together with the number of iterations the loop executed. -/

def plan30Loop : ℕ → ℚ → ℚ → ℚ → Option (List BreakRec × ℕ)
  | 0, remaining, _, _ =>
    if remaining > 0 then none else some ([], 0)
  | fuel + 1, remaining, current, completed =>
    if remaining > 0 then
      let step : List BreakRec × ℚ :=
        if current ≥ 8 then ([mk30Break completed], 0) else ([], current)
      let seg := min remaining (8 - step.2)
      match plan30Loop fuel (remaining - seg) (step.2 + seg) (completed + seg) with
      | none => none
      | some (bs, n) => some (step.1 ++ bs, n + 1)
    else
      some ([], 0)

/-- Fuel that will be proven sufficient for `plan30Loop`. -/
def plan30Fuel (estimated_driving_hours : ℚ) : ℕ :=
  (⌈estimated_driving_hours⌉).toNat + 2

/-- `plan_30_minute_breaks(estimated_driving_hours, hours_since_last_break)`:
runs the loop from `remaining_hours = estimated_driving_hours`,
`current_driving_hours = hours_since_last_break`,
`driving_hours_completed = 0`.  Returns the planned breaks and the
iteration count, or `none` if the (provably sufficient) fuel ran out. -/
def plan_30_minute_breaks (estimated_driving_hours hours_since_last_break : ℚ) :
    Option (List BreakRec × ℕ) :=
  plan30Loop (plan30Fuel estimated_driving_hours) estimated_driving_hours
    hours_since_last_break 0

/-! ## `_can_combine_breaks`, `_combine_breaks`, `_optimize_break_schedule`
(rest_break_planner.py lines 445-519) -/

/-- `_can_combine_breaks` (lines 484-496): the Python set comparison
`{break1["break_type"], break2["break_type"]} == {"30_minute", "fuel_stop"}`
holds exactly when one type is `30_minute` and the other `fuel_stop`. -/
def can_combine_breaks (b1 b2 : BreakRec) : Bool :=
  if (b1.break_type = "30_minute" ∧ b2.break_type = "fuel_stop") ∨
     (b1.break_type = "fuel_stop" ∧ b2.break_type = "30_minute") then
    true
  else if b1.break_type = "10_hour" ∨ b1.break_type = "34_hour_restart" then
    false
  else if b2.break_type = "10_hour" ∨ b2.break_type = "34_hour_restart" then
    false
  else
    false

/-- `priorities.get(p, 2)` of `_combine_breaks`. -/
def priorityRank (p : String) : ℕ :=
  if p = "low" then 1
  else if p = "medium" then 2
  else if p = "high" then 3
  else if p = "critical" then 4
  else 2

/-- `priority_names[n]` of `_combine_breaks`; only keys 1-4 occur. -/
def priorityName (n : ℕ) : String :=
  if n = 1 then "low"
  else if n = 2 then "medium"
  else if n = 3 then "high"
  else "critical"

/-- `_combine_breaks` (lines 498-519): copy of `break1` with the longer
duration, concatenated reasons, type `combined`, and the higher priority. -/
def combine_breaks (b1 b2 : BreakRec) : BreakRec :=
  { b1 with
    duration_hours := max b1.duration_hours b2.duration_hours
    reason := b1.reason ++ " + " ++ b2.reason
    break_type := "combined"
    priority := priorityName (max (priorityRank b1.priority) (priorityRank b2.priority)) }

/-- Stable insertion into a list sorted by `required_at_driving_hours`
(models Python's stable `list.sort(key=...)`). -/
def insertByHours (a : BreakRec) : List BreakRec → List BreakRec
  | [] => [a]
  | b :: bs =>
    if a.required_at_driving_hours ≤ b.required_at_driving_hours then a :: b :: bs
    else b :: insertByHours a bs

/-- Stable sort by `required_at_driving_hours` (the
`breaks.sort(key=lambda x: x["required_at_driving_hours"])` of
`_optimize_break_schedule`). -/
def sortByHours : List BreakRec → List BreakRec
  | [] => []
  | a :: as' => insertByHours a (sortByHours as')

/-- The inner `while j < len(breaks)` loop of `_optimize_break_schedule`
(lines 461-477): starting from `current`, repeatedly absorb the next break
while it is within 0.5 h and `_can_combine_breaks` allows it; returns the
final combined break and the unconsumed suffix (position `j` onward). -/
def combineInner (current : BreakRec) : List BreakRec → BreakRec × List BreakRec
  | [] => (current, [])
  | b :: bs =>
    if |b.required_at_driving_hours - current.required_at_driving_hours| ≤ 1/2 ∧
       can_combine_breaks current b then
      combineInner (combine_breaks current b) bs
    else
      (current, b :: bs)

theorem combineInner_snd_length (current : BreakRec) (l : List BreakRec) :
    (combineInner current l).2.length ≤ l.length := by
  induction l generalizing current with
  | nil => simp [combineInner]
  | cons b bs ih =>
    simp only [combineInner]
    split
    · exact le_trans (ih _) (Nat.le_succ _)
    · simp

/-- The outer `while i < len(breaks)` loop of `_optimize_break_schedule`:
emit the (possibly combined) current break, then continue after the
consumed prefix (the `i = j if j > i + 1 else i + 1` index update always
resumes exactly at the unconsumed suffix). -/
def optimizeLoop : List BreakRec → List BreakRec
  | [] => []
  | b :: bs =>
    let step := combineInner b bs
    step.1 :: optimizeLoop step.2
termination_by l => l.length
decreasing_by
  simp only [List.length_cons]
  exact Nat.lt_succ_of_le (combineInner_snd_length b bs)

/-- `_optimize_break_schedule` (lines 445-482): sort by
`required_at_driving_hours`, then run the combining loop. -/
def optimize_break_schedule (breaks : List BreakRec) : List BreakRec :=
  optimizeLoop (sortByHours breaks)

/-! ## `_validate_break_plan_compliance` (rest_break_planner.py lines 540-579) -/

/-- An issue dictionary of `_validate_break_plan_compliance`
(the `type` field; the formatted description is elided). -/
structure PlanIssue where
  itype : String
  deriving Repr, DecidableEq

/-- Result of `_validate_break_plan_compliance`. -/
structure PlanCompliance where
  is_compliant : Bool
  issues : List PlanIssue
  compliance_score : ℤ
  deriving Repr, DecidableEq

/-- `_validate_break_plan_compliance` (lines 540-579).  `int(d // 8)` on
positive `Decimal`s is the floor of the quotient. -/
def validate_break_plan_compliance (breaks : List BreakRec) (driving_hours : ℚ) :
    PlanCompliance :=
  let thirty_min_breaks := breaks.filter
    (fun b => b.break_type = "30_minute" ∨ b.break_type = "combined")
  let required_30_min_breaks : ℤ := max 1 ⌊driving_hours / 8⌋
  let issues : List PlanIssue :=
    if (thirty_min_breaks.length : ℤ) < required_30_min_breaks then
      [⟨"insufficient_30_minute_breaks"⟩]
    else []
  let issues :=
    if driving_hours > 11 then
      let ten_hour_breaks := breaks.filter (fun b => b.break_type = "10_hour")
      let required_10_hour_breaks : ℤ := max 1 ⌊(driving_hours - 1) / 11⌋
      if (ten_hour_breaks.length : ℤ) < required_10_hour_breaks then
        issues ++ [⟨"insufficient_10_hour_breaks"⟩]
      else issues
    else issues
  { is_compliant := issues.isEmpty
    issues := issues
    compliance_score := if issues.isEmpty then 100 else max 0 (100 - (issues.length : ℤ) * 20) }

/-! ## `hos_calculator.py`: inputs and validation -/

/-- The four hour inputs of `HOSCalculatorService.calculate_available_hours`
and `validate_hos_compliance`. -/
structure HOSInput where
  current_cycle_hours : ℚ
  current_duty_period_hours : ℚ
  current_driving_hours : ℚ
  hours_since_last_break : ℚ
  deriving Repr, DecidableEq

/-- `_validate_hours_input` (hos_calculator.py lines 395-410): returns the
`ValueError` message raised, or `none` when the inputs pass.  The
interpolated offending value of each Python message is elided. -/
def validate_hours_input (s : HOSInput) : Option String :=
  if s.current_cycle_hours < 0 ∨ s.current_cycle_hours > 100 then
    some "Invalid cycle hours"
  else if s.current_duty_period_hours < 0 ∨ s.current_duty_period_hours > 24 then
    some "Invalid duty period hours"
  else if s.current_driving_hours < 0 ∨ s.current_driving_hours > s.current_duty_period_hours then
    some "Invalid driving hours"
  else if s.hours_since_last_break < 0 ∨ s.hours_since_last_break > 24 then
    some "Invalid hours since break"
  else
    none

/-- `_check_can_drive` (lines 412-429). -/
def check_can_drive (available_cycle available_duty available_driving
    hours_until_break : ℚ) : Bool × String :=
  if available_cycle ≤ 0 then (false, "70-hour/8-day limit reached")
  else if available_duty ≤ 0 then (false, "14-hour duty period limit reached")
  else if available_driving ≤ 0 then (false, "11-hour driving limit reached")
  else if hours_until_break ≤ 0 then
    (false, "30-minute break required after 8 hours driving")
  else (true, "")

/-- `_calculate_max_continuous_driving` (lines 431-447): `min` over the
three availability limits plus, when positive, the hours until break;
`0` when a break is already due. -/
def calculate_max_continuous_driving (available_cycle available_duty
    available_driving hours_until_break : ℚ) : ℚ :=
  if hours_until_break > 0 then
    max 0 (min (min (min available_cycle available_duty) available_driving)
      hours_until_break)
  else 0

/-- The result dictionary of `calculate_available_hours` (lines 106-131):
`can_drive`, `violation_reason`, the four `available_hours` entries, the
echoed `current_usage`, `max_continuous_driving_hours`, and the
`calculated_at` wall-clock timestamp (modelled as a ℕ time value taken as
an explicit parameter).  The constant `limits` block is omitted. -/
structure AvailableHoursResult where
  can_drive : Bool
  violation_reason : String
  avail_cycle_hours : ℚ
  avail_duty_period_hours : ℚ
  avail_driving_hours : ℚ
  hours_until_break : ℚ
  usage : HOSInput
  max_continuous_driving_hours : ℚ
  calculated_at : ℕ
  deriving Repr, DecidableEq

/-- `calculate_available_hours` (lines 46-138).  A `ValueError` from
`_validate_hours_input` is caught and re-raised as `HOSCalculationError`
with a wrapping message; `now` is the value of `timezone.now()` at the call. -/
def calculate_available_hours (now : ℕ) (s : HOSInput) :
    Except String AvailableHoursResult :=
  match validate_hours_input s with
  | some msg => .error ("Failed to calculate available hours: " ++ msg)
  | none =>
    let available_cycle := max 0 (70 - s.current_cycle_hours)
    let available_duty_period := max 0 (14 - s.current_duty_period_hours)
    let available_driving := max 0 (11 - s.current_driving_hours)
    let hours_until_break := max 0 (8 - s.hours_since_last_break)
    let cd := check_can_drive available_cycle available_duty_period
      available_driving hours_until_break
    .ok
      { can_drive := cd.1
        violation_reason := cd.2
        avail_cycle_hours := available_cycle
        avail_duty_period_hours := available_duty_period
        avail_driving_hours := available_driving
        hours_until_break := hours_until_break
        usage := s
        max_continuous_driving_hours := calculate_max_continuous_driving
          available_cycle available_duty_period available_driving hours_until_break
        calculated_at := now }

/-! ## `validate_hos_compliance` (hos_calculator.py lines 280-393) -/

/-- One violation or warning dictionary: its `type` field and its numeric
payload (`hours_over`, `hours_remaining`, or `hours_until_required`;
descriptions and regulation references are elided). -/
structure ComplianceEntry where
  ctype : String
  amount : ℚ
  deriving Repr, DecidableEq

/-- `_calculate_compliance_score` (lines 449-456). -/
def calculate_compliance_score (violations warnings : List ComplianceEntry) : ℤ :=
  max 0 (min 100 (100 - (violations.length : ℤ) * 25 - (warnings.length : ℤ) * 5))

/-- The result dictionary of `validate_hos_compliance`. -/
structure ComplianceResult where
  is_compliant : Bool
  compliance_score : ℤ
  violations : List ComplianceEntry
  warnings : List ComplianceEntry
  total_violations : ℕ
  total_warnings : ℕ
  can_continue_driving : Bool
  deriving Repr, DecidableEq

/-- `validate_hos_compliance` (lines 280-393): the four limit checks in
source order; cycle and break checks are `if`/`elif` pairs, so each can
yield a violation or a warning but never both. -/
def validate_hos_compliance (s : HOSInput) : ComplianceResult :=
  let violations1 : List ComplianceEntry :=
    if s.current_cycle_hours > 70 then
      [⟨"cycle_hours_exceeded", s.current_cycle_hours - 70⟩]
    else []
  let warnings1 : List ComplianceEntry :=
    if s.current_cycle_hours > 70 then []
    else if s.current_cycle_hours ≥ 70 - 5 then
      [⟨"approaching_cycle_limit", 70 - s.current_cycle_hours⟩]
    else []
  let violations2 :=
    if s.current_duty_period_hours > 14 then
      violations1 ++ [⟨"duty_period_exceeded", s.current_duty_period_hours - 14⟩]
    else violations1
  let violations3 :=
    if s.current_driving_hours > 11 then
      violations2 ++ [⟨"driving_hours_exceeded", s.current_driving_hours - 11⟩]
    else violations2
  let violations4 :=
    if s.hours_since_last_break > 8 then
      violations3 ++ [⟨"break_required", s.hours_since_last_break - 8⟩]
    else violations3
  let warnings2 :=
    if s.hours_since_last_break > 8 then warnings1
    else if s.hours_since_last_break ≥ 8 - 1 then
      warnings1 ++ [⟨"break_needed_soon", 8 - s.hours_since_last_break⟩]
    else warnings1
  { is_compliant := violations4.isEmpty
    compliance_score := calculate_compliance_score violations4 warnings2
    violations := violations4
    warnings := warnings2
    total_violations := violations4.length
    total_warnings := warnings2.length
    can_continue_driving := violations4.isEmpty }

/-! ## `daily_log_generator.py`: activities, clipping, gap fill, dates

Times are whole minutes since an arbitrary epoch; calendar day `d` is the
minute window `[1440*d, 1440*(d+1))`. -/

/-- An activity dictionary of the trip timeline
(`type`, `start_time`, `duration_minutes`, `location`, `description`,
`miles_driven`). -/
structure Activity where
  atype : String
  start : ℕ
  duration_minutes : ℕ
  location : String
  description : String
  miles_driven : ℚ
  deriving Repr, DecidableEq, Inhabited

/-- End minute of an activity. -/
def Activity.stop (a : Activity) : ℕ := a.start + a.duration_minutes

/-- The clipping step of `_create_duty_status_records_for_date`
(daily_log_generator.py lines 286-305): keep an activity for the date
starting at minute `dayStart` iff it overlaps the date's window and the
clipped duration is positive; the clipped fragment keeps `miles_driven`
only when the clipped duration equals the original duration, else `0`. -/
def clip_activity_to_date (dayStart : ℕ) (a : Activity) : Option Activity :=
  let dayEnd := dayStart + 1440
  if a.start < dayEnd ∧ dayStart < a.stop then
    let clipped_start := max a.start dayStart
    let clipped_end := min a.stop dayEnd
    let clipped_duration := clipped_end - clipped_start
    if 0 < clipped_duration then
      some { a with
        start := clipped_start
        duration_minutes := clipped_duration
        miles_driven :=
          if clipped_duration = a.duration_minutes then a.miles_driven else 0 }
    else none
  else none

/-- The `date_activities` selection of
`_create_duty_status_records_for_date` for day `d`. -/
def date_activities (d : ℕ) (timeline : List Activity) : List Activity :=
  timeline.filterMap (clip_activity_to_date (1440 * d))

/-- A synthetic `off_duty` gap-fill activity as built by
`_fill_daily_log_gaps`. -/
def offDutyGap (location : String) (start duration_minutes : ℕ) : Activity :=
  { atype := "off_duty"
    start := start
    duration_minutes := duration_minutes
    location := location
    description := "Off duty"
    miles_driven := 0 }

/-- Stable insertion into a list sorted by `start` (models the stable
Python `sorted(activities, key=lambda x: x["start_time"])`). -/
def insertByStart (a : Activity) : List Activity → List Activity
  | [] => [a]
  | b :: bs =>
    if a.start ≤ b.start then a :: b :: bs
    else b :: insertByStart a bs

/-- Stable sort by `start`. -/
def sortByStart : List Activity → List Activity
  | [] => []
  | a :: as' => insertByStart a (sortByStart as')

/-- The `for i, activity in enumerate(sorted_activities)` loop of
`_fill_daily_log_gaps` (lines 377-394): copy each activity and insert an
`off_duty` gap before the next one when `next_start > current_end`. -/
def fillBetween : List Activity → List Activity
  | [] => []
  | [a] => [a]
  | a :: b :: rest =>
    a :: ((if a.stop < b.start then [offDutyGap a.location a.stop (b.start - a.stop)]
           else []) ++ fillBetween (b :: rest))

/-- `_fill_daily_log_gaps` (lines 347-410): an empty day becomes one
1440-minute `off_duty` activity; otherwise sort, fill the gap after
`dayStart`, the gaps between consecutive activities, and the gap before
`dayEnd`. -/
def fill_daily_log_gaps (activities : List Activity) (dayStart dayEnd : ℕ) :
    List Activity :=
  match sortByStart activities with
  | [] => [offDutyGap "Rest location" dayStart 1440]
  | a :: rest =>
    let sorted := a :: rest
    let headGap :=
      if dayStart < a.start then [offDutyGap "Rest location" dayStart (a.start - dayStart)]
      else []
    let last := sorted.getLast (List.cons_ne_nil a rest)
    let tailGap :=
      if last.stop < dayEnd then [offDutyGap last.location last.stop (dayEnd - last.stop)]
      else []
    headGap ++ fillBetween sorted ++ tailGap

/-- `_determine_daily_log_dates` (lines 233-244): the `while current_date
<= end_date` loop yields every day index from `startDay` to `endDay`. -/
def determine_daily_log_dates (startDay endDay : ℕ) : List ℕ :=
  List.range' startDay (endDay + 1 - startDay)

/-- First activity start of a timeline (the timeline's
`trip_start_time`); `0` for an empty timeline. -/
def timelineStart (timeline : List Activity) : ℕ :=
  match timeline with
  | [] => 0
  | a :: _ => a.start

/-- End minute of the last activity of a timeline (the timeline's
`trip_end_time`); `0` for an empty timeline. -/
def timelineStop (timeline : List Activity) : ℕ :=
  match timeline.getLast? with
  | none => 0
  | some a => a.stop

/-- The daily-log partition of `generate_trip_daily_logs` composed with
`_create_duty_status_records_for_date`: one record per date from the trip
start date to the trip end date, each holding that date's clipped and
gap-filled activities. -/
def generate_trip_daily_logs (timeline : List Activity) : List (ℕ × List Activity) :=
  (determine_daily_log_dates (timelineStart timeline / 1440)
      (timelineStop timeline / 1440)).map
    (fun d => (d, fill_daily_log_gaps (date_activities d timeline)
      (1440 * d) (1440 * d + 1440)))

/-- Total `duration_minutes` of a record's activities. -/
def totalMinutes (activities : List Activity) : ℕ :=
  (activities.map Activity.duration_minutes).sum

/-! ## Lemmas about `plan30Loop` -/

/-- Break marks at `comp`, `comp + 8`, ..., `comp + 8*(n-1)`. -/
def eightMarks (comp : ℚ) (n : ℕ) : List BreakRec :=
  (List.range n).map (fun k : ℕ => mk30Break (comp + 8 * (k : ℚ)))

theorem plan30Loop_nonpos (fuel : ℕ) (rem cur comp : ℚ) (h : ¬ rem > 0) :
    plan30Loop fuel rem cur comp = some ([], 0) := by
  cases fuel <;> simp [plan30Loop, h]

theorem eightMarks_succ (comp : ℚ) (n : ℕ) :
    eightMarks comp (n + 1) = mk30Break comp :: eightMarks (comp + 8) n := by
  simp only [eightMarks, List.range_succ_eq_map, List.map_cons, List.map_map]
  congr 1
  · norm_num
  · apply List.map_congr_left
    intro k _
    simp only [Function.comp_apply]
    push_cast
    ring_nf

/-- Behaviour of the loop from a state where `current_driving_hours` is
exactly `8`: every iteration emits one break, at marks `comp`, `comp + 8`,
..., and the iteration count `n` satisfies `8*(n-1) < rem ≤ 8*n`. -/
theorem plan30Loop_eight (fuel : ℕ) :
    ∀ rem comp : ℚ, 0 < rem → rem ≤ 8 * fuel →
      ∃ n : ℕ, plan30Loop fuel rem 8 comp = some (eightMarks comp n, n) ∧
        8 * ((n : ℚ) - 1) < rem ∧ rem ≤ 8 * n := by
  induction fuel with
  | zero =>
    intro rem comp h1 h2
    exfalso
    push_cast at h2
    linarith
  | succ f ih =>
    intro rem comp h1 h2
    by_cases hle : rem ≤ 8
    · refine ⟨1, ?_, ?_, ?_⟩
      · simp only [plan30Loop, h1, if_true, ge_iff_le, le_refl, sub_zero, zero_add]
        rw [min_eq_left hle, plan30Loop_nonpos f (rem - rem) rem (comp + rem) (by simp)]
        simp only [Option.some.injEq]
        simp [eightMarks, List.range_succ]
      · push_cast; linarith
      · push_cast; linarith
    · push_neg at hle
      obtain ⟨n, hsome, hlow, hhigh⟩ :=
        ih (rem - 8) (comp + 8) (by linarith) (by push_cast at h2 ⊢; linarith)
      refine ⟨n + 1, ?_, ?_, ?_⟩
      · simp only [plan30Loop, h1, if_true, ge_iff_le, le_refl, sub_zero, zero_add]
        rw [min_eq_right hle.le, hsome, eightMarks_succ]
        simp
      · push_cast at hlow ⊢; linarith
      · push_cast at hhigh ⊢; linarith

theorem ceil_toNat_ge (D : ℚ) (hD : 0 < D) : D ≤ ((⌈D⌉.toNat : ℕ) : ℚ) := by
  have h1 : (0:ℤ) ≤ ⌈D⌉ := by positivity
  have h2 : ((⌈D⌉.toNat : ℕ) : ℚ) = ((⌈D⌉ : ℤ) : ℚ) := by
    exact_mod_cast congrArg (fun z : ℤ => (z : ℚ)) (Int.toNat_of_nonneg h1)
  rw [h2]
  exact Int.le_ceil D

theorem plan30Loop_eight_any (fuel : ℕ) (rem cur comp : ℚ) (hcur : cur = 8)
    (h1 : 0 < rem) (h2 : rem ≤ 8 * fuel) :
    ∃ n : ℕ, plan30Loop fuel rem cur comp = some (eightMarks comp n, n) ∧
      8 * ((n : ℚ) - 1) < rem ∧ rem ≤ 8 * n := by
  subst hcur
  exact plan30Loop_eight fuel rem comp h1 h2

/-- `plan_30_minute_breaks` with `hours_since_last_break = 0` emits its
breaks exactly at the marks `8, 16, ..., 8*m`, where `m` is characterised
by `8*m < driving_hours ≤ 8*(m+1)` (with `m = 0` whenever
`driving_hours ≤ 8`). -/
theorem plan30_zero_marks (D : ℚ) (hD : 0 ≤ D) :
    ∃ m : ℕ, (plan_30_minute_breaks D 0).map Prod.fst =
        some ((List.range m).map (fun k : ℕ => mk30Break (8 * ((k : ℚ) + 1)))) ∧
      D ≤ 8 * ((m : ℚ) + 1) ∧ (m = 0 ∨ 8 * (m : ℚ) < D) := by
  rcases eq_or_lt_of_le hD with hD0 | hDpos
  · subst hD0
    refine ⟨0, ?_, by norm_num, Or.inl rfl⟩
    rw [plan_30_minute_breaks, plan30Loop_nonpos _ _ _ _ (by simp)]
    simp
  · rw [plan_30_minute_breaks, plan30Fuel,
      show ⌈D⌉.toNat + 2 = (⌈D⌉.toNat + 1) + 1 from rfl, plan30Loop]
    rw [if_pos hDpos]
    have hDF : D ≤ 8 * ((⌈D⌉.toNat + 1 : ℕ) : ℚ) := by
      have := ceil_toNat_ge D hDpos
      push_cast at this ⊢
      linarith
    rw [if_neg (by norm_num : ¬ ((0:ℚ) ≥ 8))]
    dsimp only
    by_cases hseg : D ≤ 8 - (0:ℚ)
    · rw [min_eq_left hseg, plan30Loop_nonpos _ _ _ _ (by simp)]
      refine ⟨0, by simp, by push_cast; linarith [hseg], Or.inl rfl⟩
    · push_neg at hseg
      rw [min_eq_right (le_of_lt hseg)]
      obtain ⟨n, hsome, hlow, hhigh⟩ :=
        plan30Loop_eight_any (⌈D⌉.toNat + 1) (D - (8 - 0)) ((0:ℚ) + (8 - 0))
          ((0:ℚ) + (8 - 0)) (by norm_num) (by linarith) (by linarith)
      rw [hsome]
      refine ⟨n, ?_, by linarith, Or.inr (by linarith)⟩
      simp only [Option.map_some', Option.map_some, Option.some.injEq, eightMarks,
        List.nil_append]
      apply List.map_congr_left
      intro k _
      norm_num
      ring_nf

/-! ## Claim C1 -/

/-- Claim C1, counterexample: the claim predicts one break for
`driving_hours = 8` (and two for `16`), but `plan_30_minute_breaks 8 0`
returns no break at all, because the loop exits once `remaining_hours`
reaches `0` before the break check of the next iteration can fire;
`plan_30_minute_breaks 16 0` returns exactly one break. -/
theorem C1_counterexample :
    (plan_30_minute_breaks 8 0).map Prod.fst = some [] ∧
      (plan_30_minute_breaks 8 0).map Prod.fst ≠ some [mk30Break 8] ∧
      (plan_30_minute_breaks 16 0).map Prod.fst = some [mk30Break 8] := by
  refine ⟨?_, ?_, ?_⟩ <;>
    norm_num [plan_30_minute_breaks, plan30Fuel, plan30Loop, min_def]

/-- Claim C1 (amended): for every `driving_hours ≥ 0` with
`hours_since_last_break = 0`, `plan_30_minute_breaks` emits one
`30_minute` break at each cumulative-driving mark `8*k` that lies strictly
below `driving_hours` (each break carrying
`required_at_trip_miles = mark * 55`, part of `mk30Break`); so the breaks
are exactly at marks `8, 16, ..., 8*m` with
`8*m < driving_hours ≤ 8*(m+1)`.  In particular `driving_hours = 0` and
`8` yield `0` breaks, `16` and `8.0001` yield `1`, and `20` yields exactly
`2`, at marks `8.0` and `16.0`. -/
theorem C1_theorem :
    (∀ D : ℚ, 0 ≤ D →
      ∃ m : ℕ, (plan_30_minute_breaks D 0).map Prod.fst =
          some ((List.range m).map (fun k : ℕ => mk30Break (8 * ((k : ℚ) + 1)))) ∧
        D ≤ 8 * ((m : ℚ) + 1) ∧ (m = 0 ∨ 8 * (m : ℚ) < D)) ∧
      (plan_30_minute_breaks 0 0).map Prod.fst = some [] ∧
      (plan_30_minute_breaks 8 0).map Prod.fst = some [] ∧
      (plan_30_minute_breaks 16 0).map Prod.fst = some [mk30Break 8] ∧
      (plan_30_minute_breaks (80001/10000) 0).map Prod.fst = some [mk30Break 8] ∧
      (plan_30_minute_breaks 20 0).map Prod.fst = some [mk30Break 8, mk30Break 16] := by
  refine ⟨plan30_zero_marks, ?_, ?_, ?_, ?_, ?_⟩ <;>
    norm_num [plan_30_minute_breaks, plan30Fuel, plan30Loop, plan30Loop_nonpos, min_def]

/-- Claim C1, witness: the amended characterisation instantiated at
`driving_hours = 20`. -/
theorem C1_witness :
    ∃ m : ℕ, (plan_30_minute_breaks 20 0).map Prod.fst =
        some ((List.range m).map (fun k : ℕ => mk30Break (8 * ((k : ℚ) + 1)))) ∧
      (20:ℚ) ≤ 8 * ((m : ℚ) + 1) ∧ (m = 0 ∨ 8 * (m : ℚ) < 20) :=
  C1_theorem.1 20 (by norm_num)

/-! ## Claim C4 -/

/-- Claim C4 (amended): for every `driving_hours ≥ 0` and
`hours_since_last_break ≥ 0` the segment-consumption loop of
`plan_30_minute_breaks` terminates (the fuel `plan30Fuel` never runs out),
within strictly fewer than `driving_hours / 8 + 2` iterations.  (The
claimed bound `driving_hours / 8 + 1` fails when `hours_since_last_break`
is positive; see the counterexample.) -/
theorem C4_theorem (D h0 : ℚ) (hD : 0 ≤ D) (_h0n : 0 ≤ h0) :
    ∃ bs n, plan_30_minute_breaks D h0 = some (bs, n) ∧ (n : ℚ) < D / 8 + 2 := by
  rcases eq_or_lt_of_le hD with hD0 | hDpos
  · subst hD0
    refine ⟨[], 0, ?_, by norm_num⟩
    rw [plan_30_minute_breaks, plan30Loop_nonpos _ _ _ _ (by simp)]
  · rw [plan_30_minute_breaks, plan30Fuel,
      show ⌈D⌉.toNat + 2 = (⌈D⌉.toNat + 1) + 1 from rfl, plan30Loop]
    rw [if_pos hDpos]
    have hDF : D ≤ 8 * ((⌈D⌉.toNat + 1 : ℕ) : ℚ) := by
      have := ceil_toNat_ge D hDpos
      push_cast at this ⊢
      linarith
    by_cases hcur : h0 ≥ (8:ℚ)
    · rw [if_pos hcur]
      dsimp only
      by_cases hseg : D ≤ 8 - (0:ℚ)
      · rw [min_eq_left hseg, plan30Loop_nonpos _ _ _ _ (by simp)]
        exact ⟨[mk30Break 0], 1, by simp, by push_cast; linarith⟩
      · push_neg at hseg
        rw [min_eq_right (le_of_lt hseg)]
        obtain ⟨n, hsome, hlow, hhigh⟩ :=
          plan30Loop_eight_any (⌈D⌉.toNat + 1) (D - (8 - 0)) ((0:ℚ) + (8 - 0))
            ((0:ℚ) + (8 - 0)) (by norm_num) (by linarith) (by linarith)
        rw [hsome]
        exact ⟨mk30Break 0 :: eightMarks (0 + (8 - 0)) n, n + 1, by simp,
          by push_cast; linarith⟩
    · rw [if_neg hcur]
      push_neg at hcur
      dsimp only
      by_cases hseg : D ≤ 8 - h0
      · rw [min_eq_left hseg, plan30Loop_nonpos _ _ _ _ (by simp)]
        exact ⟨[], 1, by simp, by push_cast; linarith⟩
      · push_neg at hseg
        rw [min_eq_right (le_of_lt hseg)]
        obtain ⟨n, hsome, hlow, hhigh⟩ :=
          plan30Loop_eight_any (⌈D⌉.toNat + 1) (D - (8 - h0)) (h0 + (8 - h0))
            ((0:ℚ) + (8 - h0)) (by ring) (by linarith) (by linarith)
        rw [hsome]
        exact ⟨eightMarks (0 + (8 - h0)) n, n + 1, by simp, by push_cast; linarith⟩

/-- Claim C4, counterexample: at `driving_hours = 10`,
`hours_since_last_break = 7` the loop runs `3` iterations, but the claimed
bound is `10/8 + 1 = 2.25`. -/
theorem C4_counterexample :
    (plan_30_minute_breaks 10 7).map Prod.snd = some 3 ∧ ¬ ((3:ℚ) ≤ 10 / 8 + 1) := by
  constructor
  · norm_num [plan_30_minute_breaks, plan30Fuel, plan30Loop, min_def]
  · norm_num

/-- Claim C4, witness: the amended bound instantiated at
`driving_hours = 10`, `hours_since_last_break = 7`. -/
theorem C4_witness :
    ∃ bs n, plan_30_minute_breaks 10 7 = some (bs, n) ∧ (n : ℚ) < 10 / 8 + 2 :=
  C4_theorem 10 7 (by norm_num) (by norm_num)

/-! ## Claim C3 -/

/-- Claim C3: for every valid input (one `calculate_available_hours`
accepts), `can_drive = true` iff all four availability headrooms are
strictly positive; when `can_drive = false` the `violation_reason` names
the first exhausted limit in the fixed order cycle → duty period →
driving → break; and never `can_drive = true` together with a non-empty
`violation_reason`. -/
theorem C3_theorem (now : ℕ) (s : HOSInput) (r : AvailableHoursResult)
    (h : calculate_available_hours now s = Except.ok r) :
    (r.can_drive = true ↔
      (0 < r.avail_cycle_hours ∧ 0 < r.avail_duty_period_hours ∧
        0 < r.avail_driving_hours ∧ 0 < r.hours_until_break)) ∧
    (r.can_drive = false → r.violation_reason =
      (if r.avail_cycle_hours ≤ 0 then "70-hour/8-day limit reached"
       else if r.avail_duty_period_hours ≤ 0 then "14-hour duty period limit reached"
       else if r.avail_driving_hours ≤ 0 then "11-hour driving limit reached"
       else "30-minute break required after 8 hours driving")) ∧
    ¬ (r.can_drive = true ∧ r.violation_reason ≠ "") := by
  unfold calculate_available_hours at h
  cases hv : validate_hours_input s with
  | some msg => rw [hv] at h; exact absurd h (by simp)
  | none =>
    rw [hv] at h
    simp only [Except.ok.injEq] at h
    subst h
    dsimp only
    unfold check_can_drive
    split_ifs with h1 h2 h3 h4 <;> simp_all

/-- Claim C3, witness: `calculate_available_hours` applied to the state
`(60, 10, 5, 3)` at time `0`. -/
theorem C3_witness :
    (let r : AvailableHoursResult :=
      ⟨true, "", 10, 4, 6, 5, ⟨60, 10, 5, 3⟩, 4, 0⟩
    (r.can_drive = true ↔
      (0 < r.avail_cycle_hours ∧ 0 < r.avail_duty_period_hours ∧
        0 < r.avail_driving_hours ∧ 0 < r.hours_until_break)) ∧
    (r.can_drive = false → r.violation_reason =
      (if r.avail_cycle_hours ≤ 0 then "70-hour/8-day limit reached"
       else if r.avail_duty_period_hours ≤ 0 then "14-hour duty period limit reached"
       else if r.avail_driving_hours ≤ 0 then "11-hour driving limit reached"
       else "30-minute break required after 8 hours driving")) ∧
    ¬ (r.can_drive = true ∧ r.violation_reason ≠ "")) :=
  C3_theorem 0 ⟨60, 10, 5, 3⟩ ⟨true, "", 10, 4, 6, 5, ⟨60, 10, 5, 3⟩, 4, 0⟩
    (by norm_num [calculate_available_hours, validate_hours_input, check_can_drive,
      calculate_max_continuous_driving, min_def, max_def])

/-! ## Claim C6 -/

/-- Claim C6 (amended): `calculate_available_hours` raises exactly when
some input is negative, or `current_cycle_hours > 100`, or
`duty_period_hours > 24`, or `driving_hours > duty_period_hours`, or
`hours_since_last_break > 24`; outside these conditions it returns a
result without raising.  (The claim omitted the `cycle > 100` and
`break > 24` conditions; see the counterexample.) -/
theorem C6_theorem (now : ℕ) (s : HOSInput) :
    (∃ e, calculate_available_hours now s = Except.error e) ↔
      (s.current_cycle_hours < 0 ∨ s.current_cycle_hours > 100 ∨
       s.current_duty_period_hours < 0 ∨ s.current_duty_period_hours > 24 ∨
       s.current_driving_hours < 0 ∨
       s.current_driving_hours > s.current_duty_period_hours ∨
       s.hours_since_last_break < 0 ∨ s.hours_since_last_break > 24) := by
  unfold calculate_available_hours validate_hours_input
  split_ifs with h1 h2 h3 h4 <;> simp_all <;> tauto

/-- Claim C6, counterexample: the state `(150, 0, 0, 0)` has no negative
input, `duty ≤ 24` and `driving ≤ duty`, so by the claim it should return
without raising, yet the code raises (`cycle_hours > 100`). -/
theorem C6_counterexample :
    (∃ e, calculate_available_hours 0 ⟨150, 0, 0, 0⟩ = Except.error e) ∧
      ¬ ((150:ℚ) < 0 ∨ (0:ℚ) < 0 ∨ (0:ℚ) < 0 ∨ (0:ℚ) < 0 ∨
          (0:ℚ) > 24 ∨ (0:ℚ) > (0:ℚ)) := by
  constructor
  · exact ⟨"Failed to calculate available hours: " ++ "Invalid cycle hours",
      by norm_num [calculate_available_hours, validate_hours_input]⟩
  · norm_num

/-! ## Claim C9 -/

/-- The result with the wall-clock `calculated_at` field cleared. -/
def eraseTimestamp (r : AvailableHoursResult) : AvailableHoursResult :=
  { r with calculated_at := 0 }

/-- Claim C9 (amended): `calculate_available_hours` is deterministic in
everything except the `calculated_at` wall-clock field: two calls on the
same `HOSInput`, at any two times, agree once that timestamp is erased.
(Outputs are not literally identical, because the result embeds
`timezone.now()`; see the counterexample.) -/
theorem C9_theorem (t1 t2 : ℕ) (s : HOSInput) :
    (calculate_available_hours t1 s).map eraseTimestamp =
      (calculate_available_hours t2 s).map eraseTimestamp := by
  unfold calculate_available_hours
  cases validate_hours_input s <;> simp [eraseTimestamp, Except.map]

/-- Claim C9, counterexample: two calls on the same state at different
wall-clock instants return different outputs (the `calculated_at` field
differs). -/
theorem C9_counterexample :
    calculate_available_hours 0 ⟨0, 0, 0, 0⟩ ≠ calculate_available_hours 1 ⟨0, 0, 0, 0⟩ := by
  have e1 : (calculate_available_hours 0 ⟨0, 0, 0, 0⟩).map
      AvailableHoursResult.calculated_at = Except.ok 0 := by
    norm_num [calculate_available_hours, validate_hours_input, Except.map]
  have e2 : (calculate_available_hours 1 ⟨0, 0, 0, 0⟩).map
      AvailableHoursResult.calculated_at = Except.ok 1 := by
    norm_num [calculate_available_hours, validate_hours_input, Except.map]
  intro h
  rw [h, e2] at e1
  exact absurd (by injection e1) (by norm_num)

/-! ## Claim C10 -/

/-- Number of entries of a given `type` in a violations/warnings list. -/
def countType (l : List ComplianceEntry) (t : String) : ℕ :=
  (l.filter (fun e => e.ctype = t)).length

/-- Claim C10: `validate_hos_compliance` never reports both the violation
and the warning of the same limit: the cycle warning appears exactly when
`65 ≤ cycle ≤ 70` (so only when the cycle violation is absent), the break
warning exactly when `7 ≤ hours_since_break ≤ 8`, and each of the four
limits contributes at most one entry across the violations and warnings
lists. -/
theorem C10_theorem (s : HOSInput) :
    (countType (validate_hos_compliance s).violations "cycle_hours_exceeded" =
        if s.current_cycle_hours > 70 then 1 else 0) ∧
    (countType (validate_hos_compliance s).warnings "approaching_cycle_limit" =
        if s.current_cycle_hours > 70 then 0
        else if s.current_cycle_hours ≥ 70 - 5 then 1 else 0) ∧
    (countType (validate_hos_compliance s).violations "break_required" =
        if s.hours_since_last_break > 8 then 1 else 0) ∧
    (countType (validate_hos_compliance s).warnings "break_needed_soon" =
        if s.hours_since_last_break > 8 then 0
        else if s.hours_since_last_break ≥ 8 - 1 then 1 else 0) ∧
    countType (validate_hos_compliance s).violations "cycle_hours_exceeded" +
      countType (validate_hos_compliance s).warnings "approaching_cycle_limit" ≤ 1 ∧
    countType (validate_hos_compliance s).violations "break_required" +
      countType (validate_hos_compliance s).warnings "break_needed_soon" ≤ 1 ∧
    countType (validate_hos_compliance s).violations "duty_period_exceeded" ≤ 1 ∧
    countType (validate_hos_compliance s).violations "driving_hours_exceeded" ≤ 1 := by
  unfold validate_hos_compliance countType
  split_ifs <;> simp_all

/-! ## Claim C7 -/

/-- A mandatory rest period: `10_hour` or `34_hour_restart`. -/
def is_mandatory_rest (b : BreakRec) : Bool :=
  b.break_type = "10_hour" ∨ b.break_type = "34_hour_restart"

theorem can_combine_breaks_iff (b1 b2 : BreakRec) :
    can_combine_breaks b1 b2 = true ↔
      ((b1.break_type = "30_minute" ∧ b2.break_type = "fuel_stop") ∨
       (b1.break_type = "fuel_stop" ∧ b2.break_type = "30_minute")) := by
  unfold can_combine_breaks
  split_ifs with h1 h2 h3 <;> simp_all

theorem can_combine_breaks_mandatory (b1 b2 : BreakRec)
    (h : is_mandatory_rest b1 = true ∨ is_mandatory_rest b2 = true) :
    can_combine_breaks b1 b2 = false := by
  rw [Bool.eq_false_iff]
  intro hc
  rcases (can_combine_breaks_iff b1 b2).mp hc with ⟨ha, hb⟩ | ⟨ha, hb⟩ <;>
    rcases h with h | h <;> simp [is_mandatory_rest, ha, hb] at h

theorem combineInner_countP (p : BreakRec → Bool)
    (hp : ∀ b1 b2, can_combine_breaks b1 b2 = true →
      p (combine_breaks b1 b2) = false ∧ p b1 = false ∧ p b2 = false) :
    ∀ (l : List BreakRec) (current : BreakRec),
      ((combineInner current l).1 :: (combineInner current l).2).countP p =
        (current :: l).countP p := by
  intro l
  induction l with
  | nil => intro current; rfl
  | cons b bs ih =>
    intro current
    by_cases hg : |b.required_at_driving_hours - current.required_at_driving_hours| ≤ 1/2 ∧
        can_combine_breaks current b = true
    · rw [combineInner, if_pos hg, ih (combine_breaks current b)]
      obtain ⟨hc, h1, h2⟩ := hp current b hg.2
      simp only [List.countP_cons, hc, h1, h2]
      norm_num
    · rw [combineInner, if_neg hg]

theorem optimizeLoop_countP (p : BreakRec → Bool)
    (hp : ∀ b1 b2, can_combine_breaks b1 b2 = true →
      p (combine_breaks b1 b2) = false ∧ p b1 = false ∧ p b2 = false) :
    ∀ l : List BreakRec, (optimizeLoop l).countP p = l.countP p := by
  have H : ∀ (n : ℕ) (l : List BreakRec), l.length ≤ n →
      (optimizeLoop l).countP p = l.countP p := by
    intro n
    induction n with
    | zero =>
      intro l hl
      match l with
      | [] => rw [optimizeLoop]
    | succ n ih =>
      intro l hl
      match l with
      | [] => rw [optimizeLoop]
      | b :: bs =>
        rw [optimizeLoop]
        have hlen : (combineInner b bs).2.length ≤ n := by
          have := combineInner_snd_length b bs
          simp only [List.length_cons] at hl
          omega
        calc ((combineInner b bs).1 :: optimizeLoop (combineInner b bs).2).countP p
            = ((combineInner b bs).1 :: (combineInner b bs).2).countP p := by
              simp only [List.countP_cons, ih _ hlen]
          _ = (b :: bs).countP p := combineInner_countP p hp bs b
  intro l
  exact H l.length l le_rfl

theorem insertByHours_perm (a : BreakRec) (l : List BreakRec) :
    (insertByHours a l).Perm (a :: l) := by
  induction l with
  | nil => rfl
  | cons b bs ih =>
    rw [insertByHours]
    split_ifs
    · rfl
    · exact (ih.cons b).trans (List.Perm.swap a b bs)

theorem sortByHours_perm (l : List BreakRec) : (sortByHours l).Perm l := by
  induction l with
  | nil => rfl
  | cons a as' ih =>
    exact (insertByHours_perm a (sortByHours as')).trans (ih.cons a)

theorem optimize_break_schedule_countP (p : BreakRec → Bool)
    (hp : ∀ b1 b2, can_combine_breaks b1 b2 = true →
      p (combine_breaks b1 b2) = false ∧ p b1 = false ∧ p b2 = false)
    (l : List BreakRec) :
    (optimize_break_schedule l).countP p = l.countP p := by
  rw [optimize_break_schedule, optimizeLoop_countP p hp,
    (sortByHours_perm l).countP_eq]

/-- Claim C7: `_can_combine_breaks` accepts exactly the pair
`{30_minute, fuel_stop}`; it never accepts when either break is a
`10_hour` or `34_hour_restart` rest; the optimizer merges a neighbour only
when it is within `0.5` hours and `_can_combine_breaks` accepts; and
`_optimize_break_schedule` preserves the number of `10_hour` /
`34_hour_restart` breaks, so none is ever absorbed into a combined
break. -/
theorem C7_theorem :
    (∀ b1 b2 : BreakRec, can_combine_breaks b1 b2 = true ↔
        ((b1.break_type = "30_minute" ∧ b2.break_type = "fuel_stop") ∨
         (b1.break_type = "fuel_stop" ∧ b2.break_type = "30_minute"))) ∧
    (∀ b1 b2 : BreakRec,
        is_mandatory_rest b1 = true ∨ is_mandatory_rest b2 = true →
        can_combine_breaks b1 b2 = false) ∧
    (∀ (current b : BreakRec) (bs : List BreakRec),
        ¬ (|b.required_at_driving_hours - current.required_at_driving_hours| ≤ 1/2 ∧
            can_combine_breaks current b = true) →
        combineInner current (b :: bs) = (current, b :: bs)) ∧
    (∀ breaks : List BreakRec,
        (optimize_break_schedule breaks).countP is_mandatory_rest =
          breaks.countP is_mandatory_rest) := by
  refine ⟨can_combine_breaks_iff, can_combine_breaks_mandatory, ?_, ?_⟩
  · intro current b bs hg
    rw [combineInner, if_neg hg]
  · intro breaks
    apply optimize_break_schedule_countP
    intro b1 b2 hc
    rcases (can_combine_breaks_iff b1 b2).mp hc with ⟨ha, hb⟩ | ⟨ha, hb⟩ <;>
      simp [is_mandatory_rest, combine_breaks, ha, hb]

/-- A concrete 10-hour mandatory rest period (the dictionary built by
`plan_daily_rest_periods` at `hours_before_rest = 5`), used in
witnesses. -/
def tenHourRest : BreakRec :=
  ⟨"10_hour", 10, 5, 275, true, "395.3(a)(1)",
    "Truck stop with parking or rest area", "critical",
    "10 consecutive hours off duty to reset daily limits"⟩

/-- Claim C7, witness: the merge-safety facts instantiated on a concrete
`10_hour` rest and a 30-minute break. -/
theorem C7_witness :
    (can_combine_breaks tenHourRest tenHourRest = false) ∧
      combineInner tenHourRest [mk30Break 5] = (tenHourRest, [mk30Break 5]) ∧
      (optimize_break_schedule [tenHourRest, mk30Break 5]).countP is_mandatory_rest =
        ([tenHourRest, mk30Break 5] : List BreakRec).countP is_mandatory_rest :=
  ⟨C7_theorem.2.1 tenHourRest tenHourRest
      (Or.inl (by norm_num [is_mandatory_rest, tenHourRest])),
    C7_theorem.2.2.1 tenHourRest (mk30Break 5) []
      (by
        rintro ⟨-, hc⟩
        rw [(C7_theorem.1 tenHourRest (mk30Break 5))] at hc
        simp [tenHourRest, mk30Break] at hc),
    C7_theorem.2.2.2 [tenHourRest, mk30Break 5]⟩

/-! ## Claim C8 -/

/-- Claim C8 (amended): for `driving_hours > 0` the break-plan compliance
sub-check reports the plan compliant iff the plan has at least
`max 1 ⌊driving_hours/8⌋` breaks of type `30_minute` or `combined` and,
when `driving_hours > 11`, at least `max 1 ⌊(driving_hours−1)/11⌋` breaks
of type `10_hour`.  (The code takes `max` with `1`, so for
`driving_hours < 8` a plan with zero 30-minute breaks still fails the
sub-check; see the counterexample.) -/
theorem C8_theorem (breaks : List BreakRec) (D : ℚ) (_hD : 0 < D) :
    (validate_break_plan_compliance breaks D).is_compliant = true ↔
      (max 1 ⌊D / 8⌋ ≤
          ((breaks.filter (fun b => b.break_type = "30_minute" ∨
            b.break_type = "combined")).length : ℤ) ∧
        (11 < D → max 1 ⌊(D - 1) / 11⌋ ≤
          ((breaks.filter (fun b => b.break_type = "10_hour")).length : ℤ))) := by
  unfold validate_break_plan_compliance
  dsimp only
  split_ifs with h1 h2 h3 h4 h5
  · exact iff_of_false (by simp)
      (fun hyp => absurd (lt_of_lt_of_le h3 hyp.1) (lt_irrefl _))
  · exact iff_of_false (by simp)
      (fun hyp => absurd (lt_of_lt_of_le h2 (hyp.2 h1)) (lt_irrefl _))
  · exact iff_of_false (by simp)
      (fun hyp => absurd (lt_of_lt_of_le h4 hyp.1) (lt_irrefl _))
  · exact iff_of_true (by simp) ⟨not_lt.mp h4, fun _ => not_lt.mp h2⟩
  · exact iff_of_false (by simp)
      (fun hyp => absurd (lt_of_lt_of_le h5 hyp.1) (lt_irrefl _))
  · exact iff_of_true (by simp) ⟨not_lt.mp h5, fun hh => absurd hh h1⟩

/-- Claim C8, counterexample: for `driving_hours = 4` the empty plan
satisfies the claim's thresholds (`0 ≥ ⌊4/8⌋` and no 10-hour requirement
since `4 ≤ 11`), yet the sub-check reports it non-compliant, because the
code requires `max(1, ⌊4/8⌋) = 1` thirty-minute breaks. -/
theorem C8_counterexample :
    (validate_break_plan_compliance [] 4).is_compliant = false ∧
      (⌊(4:ℚ) / 8⌋ ≤
        ((([] : List BreakRec).filter (fun b => b.break_type = "30_minute" ∨
          b.break_type = "combined")).length : ℤ)) ∧
      ¬ ((4:ℚ) > 11) := by
  have hf : ⌊(4:ℚ) / 8⌋ = 0 := by
    rw [Int.floor_eq_iff]
    norm_num
  refine ⟨?_, by simp [hf], by norm_num⟩
  norm_num [validate_break_plan_compliance, hf]

/-- Claim C8, witness: the amended equivalence instantiated at a
three-break plan and `driving_hours = 20`. -/
theorem C8_witness :
    (validate_break_plan_compliance [mk30Break 8, mk30Break 16, tenHourRest] 20).is_compliant
        = true ↔
      (max 1 ⌊(20:ℚ) / 8⌋ ≤
          ((([mk30Break 8, mk30Break 16, tenHourRest] : List BreakRec).filter
            (fun b => b.break_type = "30_minute" ∨
              b.break_type = "combined")).length : ℤ) ∧
        ((11:ℚ) < 20 → max 1 ⌊((20:ℚ) - 1) / 11⌋ ≤
          ((([mk30Break 8, mk30Break 16, tenHourRest] : List BreakRec).filter
            (fun b => b.break_type = "10_hour")).length : ℤ))) :=
  C8_theorem [mk30Break 8, mk30Break 16, tenHourRest] 20 (by norm_num)

/-! ## Daily-log lemmas (claims C2, C5) -/

theorem pairwise_filterMap_of_pairwise {α β : Type} (f : α → Option β)
    {R : α → α → Prop} {S : β → β → Prop}
    (h : ∀ a b x y, R a b → f a = some x → f b = some y → S x y) :
    ∀ l : List α, l.Pairwise R → (l.filterMap f).Pairwise S := by
  intro l hl
  induction l with
  | nil => simp
  | cons a l ih =>
    rw [List.filterMap_cons]
    rcases List.pairwise_cons.mp hl with ⟨hhead, htail⟩
    cases hf : f a with
    | none => exact ih htail
    | some b =>
      refine List.pairwise_cons.mpr ⟨?_, ih htail⟩
      intro y hy
      obtain ⟨c, hc, hfc⟩ := List.mem_filterMap.mp hy
      exact h a c b y (hhead c hc) hf hfc

theorem clip_mem_bounds (d : ℕ) (a a' : Activity)
    (h : clip_activity_to_date d a = some a') :
    d ≤ a'.start ∧ a'.stop ≤ d + 1440 ∧ 0 < a'.duration_minutes ∧
      a'.start = max a.start d ∧ a'.stop = min a.stop (d + 1440) := by
  unfold clip_activity_to_date at h
  dsimp only at h
  by_cases h1 : a.start < d + 1440 ∧ d < a.stop
  · rw [if_pos h1] at h
    by_cases h2 : 0 < min a.stop (d + 1440) - max a.start d
    · rw [if_pos h2] at h
      rw [Option.some_inj] at h
      subst h
      simp only [Activity.stop] at h1 h2 ⊢
      refine ⟨by omega, by omega, by omega, by trivial, by omega⟩
    · rw [if_neg h2] at h
      exact absurd h (by simp)
  · rw [if_neg h1] at h
    exact absurd h (by simp)

theorem date_activities_bounds (d : ℕ) (tl : List Activity) :
    ∀ a' ∈ date_activities d tl,
      1440 * d ≤ a'.start ∧ a'.stop ≤ 1440 * d + 1440 ∧ 0 < a'.duration_minutes := by
  intro a' ha'
  obtain ⟨a, _, hf⟩ := List.mem_filterMap.mp ha'
  have := clip_mem_bounds (1440 * d) a a' hf
  exact ⟨this.1, this.2.1, this.2.2.1⟩

theorem date_activities_chain (d : ℕ) (tl : List Activity)
    (hchain : tl.Chain' (fun x y => y.start = x.stop)) :
    (date_activities d tl).Chain' (fun x y => x.stop ≤ y.start) := by
  have htrans : Transitive (fun x y : Activity => x.stop ≤ y.start) := by
    intro x y z hxy hyz
    have : y.start ≤ y.stop := by simp [Activity.stop]
    omega
  have hpair : tl.Pairwise (fun x y => x.stop ≤ y.start) := by
    have : tl.Chain' (fun x y : Activity => x.stop ≤ y.start) :=
      hchain.imp (fun _ _ h => le_of_eq (Eq.symm h))
    exact (@List.chain'_iff_pairwise _ _ ⟨htrans⟩ tl).mp this
  apply List.Pairwise.chain'
  apply pairwise_filterMap_of_pairwise (clip_activity_to_date (1440 * d))
    (fun a b x y hab hfa hfb => ?_) tl hpair
  have hx := clip_mem_bounds _ _ _ hfa
  have hy := clip_mem_bounds _ _ _ hfb
  have hb : b.start ≤ b.stop := by simp [Activity.stop]
  rw [hx.2.2.2.2, hy.2.2.2.1]
  have : a.stop ≤ b.start := hab
  omega

theorem insertByStart_sorted (a : Activity) (l : List Activity)
    (h : ∀ b ∈ l.head?, a.start ≤ b.start) :
    insertByStart a l = a :: l := by
  cases l with
  | nil => rfl
  | cons b bs =>
    rw [insertByStart, if_pos (h b rfl)]

theorem sortByStart_sorted (l : List Activity)
    (h : l.Chain' (fun x y => x.start ≤ y.start)) :
    sortByStart l = l := by
  induction l with
  | nil => rfl
  | cons a as' ih =>
    rw [sortByStart, ih h.tail, insertByStart_sorted]
    intro b hb
    cases as' with
    | nil => simp at hb
    | cons c cs =>
      simp only [List.head?_cons, Option.mem_def, Option.some.injEq] at hb
      subst hb
      exact (List.chain'_cons.mp h).1

/-- The gaps inserted between consecutive activities make the durations
telescope: the filled span runs from the first start to the last stop. -/
theorem fillBetween_total (l : List Activity) (hne : l ≠ [])
    (hchain : l.Chain' (fun x y => x.stop ≤ y.start)) :
    totalMinutes (fillBetween l) + (l.headD default).start =
      (l.getLastD default).stop := by
  induction l with
  | nil => exact absurd rfl hne
  | cons a as' ih =>
    cases as' with
    | nil =>
      simp [fillBetween, totalMinutes, Activity.stop]
      omega
    | cons b bs =>
      have hab : a.stop ≤ b.start := (List.chain'_cons.mp hchain).1
      have hb := ih (by simp) (List.chain'_cons.mp hchain).2
      rw [fillBetween]
      simp only [totalMinutes, List.map_cons, List.map_append, List.sum_cons,
        List.sum_append, List.headD_cons, List.getLastD_cons] at hb ⊢
      by_cases hgap : a.stop < b.start
      · rw [if_pos hgap]
        simp only [offDutyGap, List.map_cons, List.map_nil, List.sum_cons,
          List.sum_nil, List.singleton_append, List.map, Activity.stop] at hb ⊢
        simp only [Activity.stop] at hab hgap
        omega
      · rw [if_neg hgap]
        simp only [List.map_nil, List.sum_nil, List.nil_append] at hb ⊢
        simp only [Activity.stop] at hab hgap hb ⊢
        omega

/-- `_fill_daily_log_gaps` on a day's worth of clipped, non-overlapping
activities always totals exactly 1440 minutes. -/
theorem fill_daily_log_gaps_total (acts : List Activity) (ds : ℕ)
    (hb : ∀ a ∈ acts, ds ≤ a.start ∧ a.stop ≤ ds + 1440 ∧ 0 < a.duration_minutes)
    (hchain : acts.Chain' (fun x y => x.stop ≤ y.start)) :
    totalMinutes (fill_daily_log_gaps acts ds (ds + 1440)) = 1440 := by
  have hsorted : sortByStart acts = acts := by
    apply sortByStart_sorted
    refine hchain.imp (fun x y h => ?_)
    have : x.start ≤ x.stop := by simp [Activity.stop]
    omega
  rw [fill_daily_log_gaps, hsorted]
  cases acts with
  | nil => simp [totalMinutes, offDutyGap]
  | cons a rest =>
    dsimp only
    have hglast : (a :: rest).getLast (List.cons_ne_nil a rest) =
        (a :: rest).getLastD default := by
      rw [List.getLastD_eq_getLast?, List.getLast?_eq_getLast _ (List.cons_ne_nil a rest)]
      rfl
    have hfb := fillBetween_total (a :: rest) (by simp) hchain
    simp only [List.headD_cons] at hfb
    have hA := hb a (by simp)
    have hL := hb ((a :: rest).getLastD default)
      (by rw [← hglast]; exact List.getLast_mem _)
    rw [hglast]
    simp only [totalMinutes, List.map_append, List.sum_append] at hfb ⊢
    by_cases hhg : ds < a.start <;>
      by_cases htg : ((a :: rest).getLastD default).stop < ds + 1440 <;>
        simp only [hhg, htg, if_true, if_false, if_pos, if_neg, not_false_iff,
          offDutyGap, List.map_cons, List.map_nil, List.sum_cons, List.sum_nil,
          List.map, totalMinutes] <;>
        omega

theorem timelineStart_le_timelineStop (tl : List Activity) (hne : tl ≠ [])
    (hchain : tl.Chain' (fun x y => y.start = x.stop)) :
    timelineStart tl ≤ timelineStop tl := by
  match tl with
  | a :: rest =>
    have hchain' : (a :: rest).Chain' (fun x y => x.stop ≤ y.start) :=
      hchain.imp (fun _ _ h => le_of_eq (Eq.symm h))
    have hfb := fillBetween_total (a :: rest) (by simp) hchain'
    simp only [List.headD_cons] at hfb
    rw [timelineStart, timelineStop,
      List.getLast?_eq_getLast _ (List.cons_ne_nil a rest)]
    have hglast : (a :: rest).getLast (List.cons_ne_nil a rest) =
        (a :: rest).getLastD default := by
      rw [List.getLastD_eq_getLast?, List.getLast?_eq_getLast _ (List.cons_ne_nil a rest)]
      rfl
    rw [hglast]
    dsimp only
    omega

/-! ## Claim C2 -/

/-- Claim C2: for every non-empty, gapless timeline of whole-minute
activities (each activity starting where the previous one ends), the
partitioner emits one daily log per calendar date from the trip start
date to the trip end date — `endDay - startDay + 1` records — and in
every record the clipped activities plus the synthetic `off_duty`
gap-fill intervals (inserted before the first interval, between
consecutive intervals and after the last; a date with no activity
becoming a single 1440-minute `off_duty` interval) have
`duration_minutes` summing to exactly 1440. -/
theorem C2_theorem (tl : List Activity) (hne : tl ≠ [])
    (hchain : tl.Chain' (fun x y => y.start = x.stop))
    (_hdur : ∀ a ∈ tl, 0 < a.duration_minutes) :
    (generate_trip_daily_logs tl).length =
      timelineStop tl / 1440 - timelineStart tl / 1440 + 1 ∧
    ∀ p ∈ generate_trip_daily_logs tl, totalMinutes p.2 = 1440 := by
  constructor
  · have hse := timelineStart_le_timelineStop tl hne hchain
    have hdiv : timelineStart tl / 1440 ≤ timelineStop tl / 1440 :=
      Nat.div_le_div_right hse
    rw [generate_trip_daily_logs, List.length_map, determine_daily_log_dates,
      List.length_range']
    omega
  · intro p hp
    obtain ⟨d, _, rfl⟩ := List.mem_map.mp hp
    exact fill_daily_log_gaps_total (date_activities d tl) (1440 * d)
      (date_activities_bounds d tl) (date_activities_chain d tl hchain)

/-- Claim C2, witness: a single 2000-minute driving activity starting at
minute 100 spans two calendar dates; the partitioner emits 2 records,
each summing to 1440 minutes. -/
theorem C2_witness :
    (generate_trip_daily_logs [⟨"driving", 100, 2000, "A", "drive", 10⟩]).length =
      timelineStop [⟨"driving", 100, 2000, "A", "drive", 10⟩] / 1440 -
        timelineStart [⟨"driving", 100, 2000, "A", "drive", 10⟩] / 1440 + 1 ∧
    ∀ p ∈ generate_trip_daily_logs [⟨"driving", 100, 2000, "A", "drive", 10⟩],
      totalMinutes p.2 = 1440 :=
  C2_theorem [⟨"driving", 100, 2000, "A", "drive", 10⟩] (by simp) (by simp) (by simp)

/-! ## Claim C5 -/

/-- Claim C5 (amended): a clipped fragment keeps the activity's
`miles_driven` exactly when its clipped duration equals the original
duration, and gets `0` miles otherwise — so for an interval split at
midnight both fragments (the first as well as the continuation) get zero
miles. -/
theorem C5_theorem (d : ℕ) (a c : Activity)
    (h : clip_activity_to_date d a = some c) :
    (c.duration_minutes = a.duration_minutes → c.miles_driven = a.miles_driven) ∧
    (c.duration_minutes ≠ a.duration_minutes → c.miles_driven = 0) := by
  unfold clip_activity_to_date at h
  dsimp only at h
  by_cases h1 : a.start < d + 1440 ∧ d < a.stop
  · rw [if_pos h1] at h
    by_cases h2 : 0 < min a.stop (d + 1440) - max a.start d
    · rw [if_pos h2] at h
      rw [Option.some_inj] at h
      subst h
      dsimp only
      by_cases hm : a.stop ⊓ (d + 1440) - a.start ⊔ d = a.duration_minutes <;>
        simp [hm]
    · rw [if_neg h2] at h
      exact absurd h (by simp)
  · rw [if_neg h1] at h
    exact absurd h (by simp)

/-- Claim C5, counterexample: a 120-minute, 50-mile driving interval
starting at 23:00 of day 0 is split at midnight; the claim says the
first fragment keeps the 50 miles, but the code gives both fragments
zero miles (the first fragment's clipped duration 60 differs from the
original 120). -/
theorem C5_counterexample :
    (clip_activity_to_date 0 ⟨"driving", 1380, 120, "X", "drv", 50⟩).map
        Activity.miles_driven = some 0 ∧
      (clip_activity_to_date 1440 ⟨"driving", 1380, 120, "X", "drv", 50⟩).map
        Activity.miles_driven = some 0 ∧
      (0:ℚ) ≠ 50 := by
  refine ⟨?_, ?_, by norm_num⟩ <;>
    norm_num [clip_activity_to_date, Activity.stop]

/-- Claim C5, witness: an interval fully inside day 0 keeps its miles. -/
theorem C5_witness :
    ((⟨"driving", 100, 60, "L", "d", 7⟩ : Activity).duration_minutes =
          (⟨"driving", 100, 60, "L", "d", 7⟩ : Activity).duration_minutes →
        (⟨"driving", 100, 60, "L", "d", 7⟩ : Activity).miles_driven =
          (⟨"driving", 100, 60, "L", "d", 7⟩ : Activity).miles_driven) ∧
      ((⟨"driving", 100, 60, "L", "d", 7⟩ : Activity).duration_minutes ≠
          (⟨"driving", 100, 60, "L", "d", 7⟩ : Activity).duration_minutes →
        (⟨"driving", 100, 60, "L", "d", 7⟩ : Activity).miles_driven = 0) :=
  C5_theorem 0 ⟨"driving", 100, 60, "L", "d", 7⟩ ⟨"driving", 100, 60, "L", "d", 7⟩
    (by norm_num [clip_activity_to_date, Activity.stop])
